import Mathlib

/-!
Shallow embedding of `lastexport.py` (beets lastexport plugin): the
fingerprinting, track processing, and the page-fetch/retry loop of
`import_lastfm`, together with theorems settling the frozen claims.

Python strings are modelled at the codepoint level as `List Nat`.  The
Python built-ins `str.lower` and `str.strip` are modelled by their ASCII
behaviour (the case mapping A-Z to a-z, and the ASCII whitespace set),
which is the fragment exercised by the code and the spec's examples.
-/

namespace LastExport

/-- Python strings, as their sequence of Unicode codepoints. -/
abbrev PyStr := List Nat

/-- Model of Python `str.lower` on one codepoint (ASCII case mapping). -/
def pyLowerCp (n : Nat) : Nat :=
  if 65 ≤ n ∧ n ≤ 90 then n + 32 else n

/-- Model of Python `str.lower`. -/
def pyLower (s : PyStr) : PyStr := s.map pyLowerCp

/-- ASCII whitespace, for the model of Python `str.strip`. -/
def isPySpace (n : Nat) : Bool := n == 32 || (9 ≤ n && n ≤ 13)

/-- Model of Python `str.strip`: drop whitespace from both ends. -/
def pyStrip (s : PyStr) : PyStr :=
  ((s.dropWhile isPySpace).reverse.dropWhile isPySpace).reverse

/-- UTF-8 encoding of one codepoint (`at.encode('utf-8')`, per codepoint). -/
def utf8Cp (n : Nat) : List Nat :=
  if n < 0x80 then [n]
  else if n < 0x800 then [0xC0 + n / 0x40, 0x80 + n % 0x40]
  else if n < 0x10000 then
    [0xE0 + n / 0x1000, 0x80 + n / 0x40 % 0x40, 0x80 + n % 0x40]
  else
    [0xF0 + n / 0x40000, 0x80 + n / 0x1000 % 0x40,
      0x80 + n / 0x40 % 0x40, 0x80 + n % 0x40]

/-- UTF-8 encoding of a whole string, as a byte list. -/
def utf8Encode (s : PyStr) : List Nat := (s.map utf8Cp).flatten

/-- One bit step of the reflected CRC-32 (polynomial 0xEDB88320). -/
def crcBit (x : Nat) : Nat :=
  if x % 2 = 1 then (x >>> 1) ^^^ 0xEDB88320 else x >>> 1

/-- Fold one byte into the CRC-32 accumulator (eight bit steps). -/
def crcByte (crc b : Nat) : Nat := crcBit^[8] (crc ^^^ b)

/-- `zlib.crc32` over a byte list: init 0xFFFFFFFF, final xor 0xFFFFFFFF. -/
def crc32 (bytes : List Nat) : Nat :=
  (bytes.foldl crcByte 0xFFFFFFFF) ^^^ 0xFFFFFFFF

/-- Fingerprint of (artist, title), as in `process_tracks` lines 219-221:
`crc32((artist.lower() + title.lower()).encode('utf-8')) & 0xffffffff`. -/
def fingerprint (artist title : PyStr) : Nat :=
  crc32 (utf8Encode (pyLower artist ++ pyLower title)) &&& 0xFFFFFFFF

/-- Codepoints of a Lean string literal, for concrete examples. -/
def cp (s : String) : PyStr := s.data.map Char.toNat

/-- A parsed track record, as built by `fetch_tracks` and consumed by
`process_tracks`: artist name, track title, and the play count. -/
structure TrackRecord where
  artist : PyStr
  title : PyStr
  playCount : Nat
deriving DecidableEq, Repr

/-- One row of the `quicktag` table: columns `(url, subsong, fieldname,
value)`. -/
structure Row where
  url : String
  subsong : String
  fieldname : String
  value : String
deriving DecidableEq, Repr

/-- Equality on the effective unique key `(url, subsong, fieldname)`. -/
def sameKey (r s : Row) : Bool :=
  r.url == s.url && r.subsong == s.subsong && r.fieldname == s.fieldname

/-- `INSERT OR REPLACE`: drop any row with the same key, append the new
row. -/
def insertOrReplace (store : List Row) (r : Row) : List Row :=
  store.filter (fun s => !(sameKey s r)) ++ [r]

/-- The row written for one track (line 223 of the source). -/
def playCountRow (artist title : PyStr) (playCount : Nat) : Row :=
  { url := toString (fingerprint artist title)
    subsong := "-1"
    fieldname := "LASTFM_PLAYCOUNT_DB"
    value := toString playCount }

/-- Process one track record: strip artist and title, fingerprint, upsert. -/
def processTrack (store : List Row) (t : TrackRecord) : List Row :=
  insertOrReplace store (playCountRow (pyStrip t.artist) (pyStrip t.title) t.playCount)

/-- The row `process_tracks` writes for a track record. -/
def trackRow (t : TrackRecord) : Row :=
  playCountRow (pyStrip t.artist) (pyStrip t.title) t.playCount

/-- `process_tracks`: upsert every track in order; returns the new store
together with `(total_found, total_fails)`.  `total_found` is incremented
once per track, `total_fails` is never touched. -/
def processTracks (store : List Row) (tracks : List TrackRecord) :
    List Row × Nat × Nat :=
  match tracks with
  | [] => (store, 0, 0)
  | t :: rest =>
    let s := processTrack store t
    let r := processTracks s rest
    (r.1, r.2.1 + 1, r.2.2)

/-- Outcome of one call to `fetch_tracks`: either the call raises an
exception, or it returns a (possibly empty) track list and the reported
total page count. -/
inductive FetchOutcome where
  | exc
  | page (tracks : List TrackRecord) (totalPages : Nat)
deriving DecidableEq, Repr

/-- The network oracle: result of fetching a given 1-indexed page at a
given 0-indexed retry attempt (successive calls for the same page may
differ). -/
abbrev Fetcher := Nat → Nat → FetchOutcome

/-- Observable events of a run (log lines, fetch calls, the confirmation
gate). -/
inductive Event where
  | queryPage (page : Nat)
  | fetched (page : Nat) (retry : Nat)
  | errorPage (page : Nat)
  | retrying (page : Nat) (retry : Nat)
  | failPage (page : Nat) (retry : Nat)
  | confirm
deriving DecidableEq, Repr

/-- Result of the inner `for retry in range(0, retry_limit)` loop: the
zero-pages `UserError` (`abort`), an uncaught fetch exception (`raised`),
or normal fall-through / break (`cont` with the latest page total, store,
and the found/unknown counts contributed by this page). -/
inductive PageOut where
  | abort (store : List Row)
  | raised (store : List Row)
  | cont (pageTotal : Nat) (store : List Row) (found : Nat) (unknown : Nat)
deriving DecidableEq, Repr

/-- The retry loop of `import_lastfm` (lines 137-160), recursing on the
number of remaining attempts; the current 0-based attempt index is
`retryLimit - remaining`.  There is no exception handler in the source,
so a fetch exception propagates (`raised`).  `total_pages < 1` raises
`ui.UserError` (`abort`).  A non-empty track list is processed and the
loop breaks; an empty list logs an error, logs the retry message when
`retry < retry_limit` (the source's unreachable else would log the FAIL
message), and retries. -/
def retryLoop (fetch : Fetcher) (page retryLimit : Nat) :
    Nat → Nat → List Row → List Event × PageOut
  | 0, pageTotal, store => ([], PageOut.cont pageTotal store 0 0)
  | remaining + 1, _pageTotal, store =>
    -- page_total is overwritten by the tuple assignment before any use
    let retry := retryLimit - (remaining + 1)
    match fetch page retry with
    | FetchOutcome.exc => ([Event.fetched page retry], PageOut.raised store)
    | FetchOutcome.page tracks tp =>
      if tp < 1 then ([Event.fetched page retry], PageOut.abort store)
      else
        match tracks with
        | [] =>
          let evs := [Event.fetched page retry, Event.errorPage page] ++
            (if retry < retryLimit then [Event.retrying page retry]
             else [Event.failPage page retry])
          let r := retryLoop fetch page retryLimit remaining tp store
          (evs ++ r.1, r.2)
        | t :: ts =>
          let p := processTracks store (t :: ts)
          ([Event.fetched page retry], PageOut.cont tp p.1 p.2.1 p.2.2)

/-- Terminal status of a run of `import_lastfm`. -/
inductive Outcome where
  | done
  | noData
  | excRaised
  | outOfFuel
deriving DecidableEq, Repr

/-- Whether the sqlite connection has been closed.  It is opened before
the page loop; `conn.close()` appears only on the normal exit path. -/
inductive ConnState where
  | opened
  | closed
deriving DecidableEq, Repr

/-- Final observable state of a run: outcome, the two counters, the
cursor's writes, whether `conn.commit()` ran, the connection state, and
the event trace. -/
structure RunResult where
  outcome : Outcome
  foundTotal : Nat
  unknownTotal : Nat
  writes : List Row
  committed : Bool
  conn : ConnState
  events : List Event
deriving DecidableEq, Repr

/-- The `while page_current < page_total` loop of `import_lastfm`
(lines 132-161) plus the epilogue (lines 163-171), with explicit fuel:
the loop bound is re-read from the latest fetch, so termination is not
structural.  On the normal path the run passes the `input()` confirmation
gate, commits, and closes the connection; on `abort`/`raised` the error
propagates with the connection still open and nothing committed. -/
def outerLoop (fetch : Fetcher) (retryLimit : Nat) :
    Nat → Nat → Nat → Nat → Nat → List Row → RunResult
  | 0, _, _, found, unknown, store =>
    { outcome := Outcome.outOfFuel, foundTotal := found,
      unknownTotal := unknown, writes := store, committed := false,
      conn := ConnState.opened, events := [] }
  | fuel + 1, pageCurrent, pageTotal, found, unknown, store =>
    -- the loop guard re-reads pageTotal as updated by the latest fetch
    if pageCurrent < pageTotal then
      let r := retryLoop fetch (pageCurrent + 1) retryLimit retryLimit pageTotal store
      match r.2 with
      | PageOut.abort store2 =>
        { outcome := Outcome.noData, foundTotal := found,
          unknownTotal := unknown, writes := store2, committed := false,
          conn := ConnState.opened,
          events := Event.queryPage (pageCurrent + 1) :: r.1 }
      | PageOut.raised store2 =>
        { outcome := Outcome.excRaised, foundTotal := found,
          unknownTotal := unknown, writes := store2, committed := false,
          conn := ConnState.opened,
          events := Event.queryPage (pageCurrent + 1) :: r.1 }
      | PageOut.cont pt2 store2 f u =>
        let rest := outerLoop fetch retryLimit fuel (pageCurrent + 1) pt2
          (found + f) (unknown + u) store2
        { rest with events := Event.queryPage (pageCurrent + 1) :: (r.1 ++ rest.events) }
    else
      { outcome := Outcome.done, foundTotal := found,
        unknownTotal := unknown, writes := store, committed := true,
        conn := ConnState.closed, events := [Event.confirm] }

/-- `import_lastfm` after the configuration reads and user check:
`page_total = 1`, `page_current = 0`, counters zero, empty store. -/
def importLastfm (fetch : Fetcher) (retryLimit fuel : Nat) : RunResult :=
  outerLoop fetch retryLimit fuel 0 1 0 0 []

/-- Pages named by the `Querying page #n` log lines, in order. -/
def queryPages (evs : List Event) : List Nat :=
  evs.filterMap (fun e =>
    match e with
    | Event.queryPage p => some p
    | _ => none)

/-- Pages passed to `fetch_tracks`, in call order. -/
def fetchedPages (evs : List Event) : List Nat :=
  evs.filterMap (fun e =>
    match e with
    | Event.fetched p _ => some p
    | _ => none)

/-- A sample track record, for concrete witnesses. -/
def trkA : TrackRecord :=
  { artist := cp ("Air"), title := cp ("Sexy Boy"), playCount := 10 }

/-- Another sample track record, for concrete witnesses. -/
def trkB : TrackRecord :=
  { artist := cp ("Radiohead"), title := cp ("Creep"), playCount := 4 }

/-! Helper lemmas. -/

/-- The ASCII case mapping is idempotent. -/
lemma pyLowerCp_idem (n : Nat) : pyLowerCp (pyLowerCp n) = pyLowerCp n := by
  unfold pyLowerCp
  split_ifs with h1 h2 <;> omega

/-- Lowercasing is idempotent. -/
lemma pyLower_idem (s : PyStr) : pyLower (pyLower s) = pyLower s := by
  simp [pyLower, pyLowerCp_idem, Function.comp]

/-- `process_tracks` counts every track into `total_found`. -/
lemma processTracks_found (tracks : List TrackRecord) :
    ∀ store, (processTracks store tracks).2.1 = tracks.length := by
  induction tracks with
  | nil => intro store; simp [processTracks]
  | cons t rest ih => intro store; simp [processTracks, ih]

/-- `process_tracks` never touches `total_fails`. -/
lemma processTracks_unknown (tracks : List TrackRecord) :
    ∀ store, (processTracks store tracks).2.2 = 0 := by
  induction tracks with
  | nil => intro store; simp [processTracks]
  | cons t rest ih => intro store; simp [processTracks, ih]

/-- When the retry loop falls through or breaks, the unknown count it
contributes is zero. -/
lemma retryLoop_unknown (fetch : Fetcher) (page rl : Nat) :
    ∀ remaining pt store pt2 st2 f u,
      (retryLoop fetch page rl remaining pt store).2 = PageOut.cont pt2 st2 f u →
      u = 0 := by
  intro remaining
  induction remaining with
  | zero =>
    intro pt store pt2 st2 f u h
    simp [retryLoop] at h
    omega
  | succ k ih =>
    intro pt store pt2 st2 f u h
    rcases hf : fetch page (rl - (k + 1)) with _ | ⟨tracks, tp⟩
    · simp [retryLoop, hf] at h
    · by_cases htp : tp < 1
      · simp [retryLoop, hf, htp] at h
      · rcases tracks with _ | ⟨t, ts⟩
        · simp only [retryLoop, hf, if_neg htp] at h
          exact ih tp store pt2 st2 f u h
        · simp [retryLoop, hf, htp, processTracks_unknown] at h
          omega

/-- The retry loop emits no `Querying page` line. -/
lemma retryLoop_noQuery (fetch : Fetcher) (page rl : Nat) :
    ∀ remaining pt store,
      queryPages (retryLoop fetch page rl remaining pt store).1 = [] := by
  intro remaining
  induction remaining with
  | zero => intro pt store; simp [retryLoop, queryPages]
  | succ k ih =>
    intro pt store
    rcases hf : fetch page (rl - (k + 1)) with _ | ⟨tracks, tp⟩
    · simp [retryLoop, hf, queryPages]
    · by_cases htp : tp < 1
      · simp [retryLoop, hf, htp, queryPages]
      · rcases tracks with _ | ⟨t, ts⟩
        · by_cases hr : rl - (k + 1) < rl
          · simp only [retryLoop, hf, if_neg htp, if_pos hr]
            simp only [queryPages, List.filterMap_append] at ih ⊢
            simp [ih]
          · simp only [retryLoop, hf, if_neg htp, if_neg hr]
            simp only [queryPages, List.filterMap_append] at ih ⊢
            simp [ih]
        · simp [retryLoop, hf, htp, queryPages]

/-- With a positive retry limit, the exhaustion (FAIL) branch of the
retry loop is never taken. -/
lemma retryLoop_noFail (fetch : Fetcher) (page rl : Nat) (hrl : 1 ≤ rl) :
    ∀ remaining pt store p r,
      Event.failPage p r ∉ (retryLoop fetch page rl remaining pt store).1 := by
  intro remaining
  induction remaining with
  | zero => intro pt store p r; simp [retryLoop]
  | succ k ih =>
    intro pt store p r
    rcases hf : fetch page (rl - (k + 1)) with _ | ⟨tracks, tp⟩
    · simp [retryLoop, hf]
    · by_cases htp : tp < 1
      · simp [retryLoop, hf, htp]
      · rcases tracks with _ | ⟨t, ts⟩
        · have hr : rl - (k + 1) < rl := by omega
          simp only [retryLoop, hf, if_neg htp, if_pos hr]
          simp only [List.mem_append, List.mem_cons, List.mem_singleton]
          push_neg
          refine ⟨⟨by simp, by simp, by simp⟩, ?_⟩
          exact fun hmem => absurd hmem (ih tp store p r)
        · simp [retryLoop, hf, htp]

/-- Whatever the retry limit, the top-level retry-loop call emits no FAIL
line (for `retry_limit = 0` the loop body never runs). -/
lemma retryLoop_top_noFail (fetch : Fetcher) (page rl pt : Nat)
    (store : List Row) (p r : Nat) :
    Event.failPage p r ∉ (retryLoop fetch page rl rl pt store).1 := by
  rcases rl with _ | k
  · simp [retryLoop]
  · exact retryLoop_noFail fetch page (k + 1) (by omega) (k + 1) pt store p r

/-- First-attempt success at the top of the retry loop: non-empty tracks
with a valid page count are processed and the loop breaks. -/
lemma retryLoop_top_cont (fetch : Fetcher) (page rl pt : Nat)
    (store : List Row) (t : TrackRecord) (ts : List TrackRecord) (tp : Nat)
    (hrl : 1 ≤ rl) (hf : fetch page 0 = FetchOutcome.page (t :: ts) tp)
    (htp : 1 ≤ tp) :
    retryLoop fetch page rl rl pt store =
      ([Event.fetched page 0],
        PageOut.cont tp (processTracks store (t :: ts)).1
          (processTracks store (t :: ts)).2.1 (processTracks store (t :: ts)).2.2) := by
  obtain ⟨k, rfl⟩ : ∃ k, rl = k + 1 := ⟨rl - 1, by omega⟩
  have h0 : k + 1 - (k + 1) = 0 := by omega
  have htp' : ¬ tp < 1 := by omega
  simp [retryLoop, h0, hf, htp']

/-- First-attempt zero-total-pages at the top of the retry loop raises
the `UserError` at once, with the store untouched. -/
lemma retryLoop_top_abort (fetch : Fetcher) (page rl pt : Nat)
    (store : List Row) (tracks : List TrackRecord) (tp : Nat)
    (hrl : 1 ≤ rl) (hf : fetch page 0 = FetchOutcome.page tracks tp)
    (htp : tp < 1) :
    retryLoop fetch page rl rl pt store =
      ([Event.fetched page 0], PageOut.abort store) := by
  obtain ⟨k, rfl⟩ : ∃ k, rl = k + 1 := ⟨rl - 1, by omega⟩
  have h0 : k + 1 - (k + 1) = 0 := by omega
  simp [retryLoop, h0, hf, htp]

/-- A first-attempt fetch exception propagates out of the retry loop at
once: there is no handler in the source. -/
lemma retryLoop_top_exc (fetch : Fetcher) (page rl pt : Nat)
    (store : List Row) (hrl : 1 ≤ rl) (hf : fetch page 0 = FetchOutcome.exc) :
    retryLoop fetch page rl rl pt store =
      ([Event.fetched page 0], PageOut.raised store) := by
  obtain ⟨k, rfl⟩ : ∃ k, rl = k + 1 := ⟨rl - 1, by omega⟩
  have h0 : k + 1 - (k + 1) = 0 := by omega
  simp [retryLoop, h0, hf]

/-- When every attempt for a page yields an empty list with a valid page
count, the retry loop exhausts its budget and falls through with no
writes and no counts. -/
lemma retryLoop_allEmpty (fetch : Fetcher) (page rl tp : Nat)
    (hf : ∀ r, fetch page r = FetchOutcome.page [] tp) (htp : 1 ≤ tp) :
    ∀ remaining pt store, ∃ evs,
      retryLoop fetch page rl remaining pt store =
        (evs, PageOut.cont (if remaining = 0 then pt else tp) store 0 0) := by
  intro remaining
  induction remaining with
  | zero => intro pt store; exact ⟨[], by simp [retryLoop]⟩
  | succ k ih =>
    intro pt store
    obtain ⟨evs, hevs⟩ := ih tp store
    have htp' : ¬ tp < 1 := by omega
    refine ⟨[Event.fetched page (rl - (k + 1)), Event.errorPage page] ++
      (if rl - (k + 1) < rl then [Event.retrying page (rl - (k + 1))]
       else [Event.failPage page (rl - (k + 1))]) ++ evs, ?_⟩
    simp only [retryLoop, hf (rl - (k + 1)), if_neg htp', hevs]
    rcases k with _ | k' <;> simp

/-- Top-level version of `retryLoop_allEmpty` for a positive retry
limit. -/
lemma retryLoop_top_allEmpty (fetch : Fetcher) (page rl tp pt : Nat)
    (store : List Row) (hrl : 1 ≤ rl)
    (hf : ∀ r, fetch page r = FetchOutcome.page [] tp) (htp : 1 ≤ tp) :
    ∃ evs, retryLoop fetch page rl rl pt store =
      (evs, PageOut.cont tp store 0 0) := by
  obtain ⟨evs, hevs⟩ := retryLoop_allEmpty fetch page rl tp hf htp rl pt store
  refine ⟨evs, ?_⟩
  rw [hevs]
  have : ¬ rl = 0 := by omega
  simp [this]

/-- `unknown_total` is only ever increased by the zero contributions of
`process_tracks`, so it stays at its initial value. -/
lemma outerLoop_unknown (fetch : Fetcher) (rl : Nat) :
    ∀ fuel pc pt f u store,
      (outerLoop fetch rl fuel pc pt f u store).unknownTotal = u := by
  intro fuel
  induction fuel with
  | zero => intro pc pt f u store; simp [outerLoop]
  | succ k ih =>
    intro pc pt f u store
    by_cases h : pc < pt
    · rcases hr : (retryLoop fetch (pc + 1) rl rl pt store).2 with
        st2 | st2 | ⟨pt2, st2, f2, u2⟩
      · simp [outerLoop, h, hr]
      · simp [outerLoop, h, hr]
      · have hu2 : u2 = 0 :=
          retryLoop_unknown fetch (pc + 1) rl rl pt store pt2 st2 f2 u2 hr
        simp [outerLoop, h, hr, ih, hu2]
    · simp [outerLoop, h]

/-- On the error exits the run never commits and never closes the
connection. -/
lemma outerLoop_err (fetch : Fetcher) (rl : Nat) :
    ∀ fuel pc pt f u store,
      (outerLoop fetch rl fuel pc pt f u store).outcome = Outcome.noData ∨
      (outerLoop fetch rl fuel pc pt f u store).outcome = Outcome.excRaised →
      (outerLoop fetch rl fuel pc pt f u store).committed = false ∧
      (outerLoop fetch rl fuel pc pt f u store).conn = ConnState.opened := by
  intro fuel
  induction fuel with
  | zero => intro pc pt f u store _; simp [outerLoop]
  | succ k ih =>
    intro pc pt f u store hout
    by_cases h : pc < pt
    · rcases hr : (retryLoop fetch (pc + 1) rl rl pt store).2 with
        st2 | st2 | ⟨pt2, st2, f2, u2⟩
      · simp [outerLoop, h, hr]
      · simp [outerLoop, h, hr]
      · simp only [outerLoop, if_pos h, hr] at hout ⊢
        exact ih (pc + 1) pt2 (f + f2) (u + u2) st2 hout
    · simp [outerLoop, h] at hout

/-- The FAIL log line never occurs in a run. -/
lemma outerLoop_noFail (fetch : Fetcher) (rl : Nat) :
    ∀ fuel pc pt f u store p r,
      Event.failPage p r ∉ (outerLoop fetch rl fuel pc pt f u store).events := by
  intro fuel
  induction fuel with
  | zero => intro pc pt f u store p r; simp [outerLoop]
  | succ k ih =>
    intro pc pt f u store p r
    by_cases h : pc < pt
    · rcases hr : (retryLoop fetch (pc + 1) rl rl pt store).2 with
        st2 | st2 | ⟨pt2, st2, f2, u2⟩
      · simp only [outerLoop, if_pos h, hr]
        simp only [List.mem_cons, List.mem_singleton]
        push_neg
        refine ⟨by simp, ?_⟩
        exact fun hmem => absurd hmem (retryLoop_top_noFail fetch (pc + 1) rl pt store p r)
      · simp only [outerLoop, if_pos h, hr]
        simp only [List.mem_cons, List.mem_singleton]
        push_neg
        refine ⟨by simp, ?_⟩
        exact fun hmem => absurd hmem (retryLoop_top_noFail fetch (pc + 1) rl pt store p r)
      · simp only [outerLoop, if_pos h, hr]
        simp only [List.mem_cons, List.mem_append]
        push_neg
        refine ⟨by simp, ?_, ?_⟩
        · exact fun hmem => absurd hmem (retryLoop_top_noFail fetch (pc + 1) rl pt store p r)
        · exact fun hmem => absurd hmem (ih (pc + 1) pt2 (f + f2) (u + u2) st2 p r)
    · simp [outerLoop, h]

/-- The `Querying page` lines name consecutive pages starting right
after the current one. -/
lemma outerLoop_query (fetch : Fetcher) (rl : Nat) :
    ∀ fuel pc pt f u store, ∃ m,
      queryPages (outerLoop fetch rl fuel pc pt f u store).events =
        List.range' (pc + 1) m := by
  intro fuel
  induction fuel with
  | zero =>
    intro pc pt f u store
    exact ⟨0, by simp [outerLoop, queryPages]⟩
  | succ k ih =>
    intro pc pt f u store
    by_cases h : pc < pt
    · rcases hr : (retryLoop fetch (pc + 1) rl rl pt store).2 with
        st2 | st2 | ⟨pt2, st2, f2, u2⟩
      · refine ⟨1, ?_⟩
        simp only [outerLoop, if_pos h, hr, queryPages, List.filterMap_cons]
        have := retryLoop_noQuery fetch (pc + 1) rl rl pt store
        simp only [queryPages] at this
        simp [this, List.range'_one]
      · refine ⟨1, ?_⟩
        simp only [outerLoop, if_pos h, hr, queryPages, List.filterMap_cons]
        have := retryLoop_noQuery fetch (pc + 1) rl rl pt store
        simp only [queryPages] at this
        simp [this, List.range'_one]
      · obtain ⟨m, hm⟩ := ih (pc + 1) pt2 (f + f2) (u + u2) st2
        refine ⟨m + 1, ?_⟩
        simp only [outerLoop, if_pos h, hr, queryPages, List.filterMap_cons,
          List.filterMap_append]
        have hq := retryLoop_noQuery fetch (pc + 1) rl rl pt store
        simp only [queryPages] at hq
        simp only [queryPages] at hm
        simp [hq, hm, List.range'_succ]
    · exact ⟨0, by simp [outerLoop, h, queryPages]⟩

/-- A row always matches its own key. -/
lemma sameKey_refl (r : Row) : sameKey r r = true := by
  simp [sameKey]

/-- After an upsert, the rows matching the inserted key are exactly the
inserted row. -/
lemma filter_insertOrReplace (store : List Row) (r : Row) :
    (insertOrReplace store r).filter (fun s => sameKey s r) = [r] := by
  simp [insertOrReplace, List.filter_append, List.filter_filter, sameKey_refl]

/-- Upserting the same track twice is the same as upserting it once. -/
lemma processTrack_idem (store : List Row) (t : TrackRecord) :
    processTrack (processTrack store t) t = processTrack store t := by
  simp [processTrack, insertOrReplace, List.filter_append, List.filter_filter,
    sameKey_refl]

/-- Upserting the same track any positive number of times is the same as
upserting it once. -/
lemma processTrack_iterate (store : List Row) (t : TrackRecord) :
    ∀ n, (fun s => processTrack s t)^[n + 1] store = processTrack store t := by
  intro n
  induction n with
  | zero => simp
  | succ m ih =>
    rw [Function.iterate_succ_apply', ih]
    exact processTrack_idem store t

set_option maxRecDepth 8192 in
/-- C1: the fingerprint key is the CRC-32 of the UTF-8 bytes of
`lower(artist) ++ lower(title)` (no separator), masked to the unsigned
32-bit range; it is stored as the row's `url`; and it is case
insensitive, e.g. on `Radiohead`/`Creep`. -/
theorem claim_c1 : ∀ artist title : PyStr,
    fingerprint artist title =
      crc32 (utf8Encode (pyLower artist ++ pyLower title)) % 2 ^ 32
    ∧ fingerprint artist title = fingerprint (pyLower artist) (pyLower title)
    ∧ (∀ pc : Nat,
        (playCountRow artist title pc).url = toString (fingerprint artist title))
    ∧ fingerprint (cp ("Radiohead")) (cp ("Creep")) =
        fingerprint (cp ("radiohead")) (cp ("creep")) := by
  intro artist title
  refine ⟨?_, ?_, fun pc => rfl, by decide⟩
  · have hm : (0xFFFFFFFF : Nat) = 2 ^ 32 - 1 := by norm_num
    unfold fingerprint
    rw [hm, Nat.and_pow_two_sub_one_eq_mod]
  · unfold fingerprint
    rw [pyLower_idem, pyLower_idem]

/-- C2: processing the same track record any positive number of times
leaves exactly one row in the store for its fingerprint key, with
`url = str(key)`, `subsong = -1`, `fieldname = LASTFM_PLAYCOUNT_DB` and
the play count of the most recent processing: the upsert is idempotent
and last-write-wins. -/
theorem claim_c2 : ∀ (store : List Row) (t : TrackRecord) (n : Nat), 1 ≤ n →
    ((fun s => processTrack s t)^[n] store = processTrack store t)
    ∧ ((processTrack store t).filter (fun r => sameKey r (trackRow t)) = [trackRow t])
    ∧ (trackRow t).url = toString (fingerprint (pyStrip t.artist) (pyStrip t.title))
    ∧ (trackRow t).subsong = "-1"
    ∧ (trackRow t).fieldname = "LASTFM_PLAYCOUNT_DB"
    ∧ (trackRow t).value = toString t.playCount := by
  intro store t n hn
  obtain ⟨m, rfl⟩ : ∃ m, n = m + 1 := ⟨n - 1, by omega⟩
  refine ⟨processTrack_iterate store t m, ?_, rfl, rfl, rfl, rfl⟩
  exact filter_insertOrReplace store (trackRow t)

/-- Witness for C2 at a concrete store, track and repetition count. -/
theorem claim_c2_witness :
    1 ≤ 2 ∧ (fun s => processTrack s trkA)^[2] [] = processTrack [] trkA :=
  ⟨by decide, (claim_c2 [] trkA 2 (by decide)).1⟩

/-- C3: a fetch attempt reporting `total_pages < 1` — at any page, at any
point of the retry loop — raises the terminal no-data error at once,
without retrying and without touching the store; in particular a fetcher
returning `total_pages = 0` on the first call makes the run fail with no
storage write and no second fetch. -/
theorem claim_c3 :
    (∀ (fetch : Fetcher) (page rl remaining pt : Nat) (store : List Row)
        (tracks : List TrackRecord) (tp : Nat),
      fetch page (rl - (remaining + 1)) = FetchOutcome.page tracks tp → tp < 1 →
      retryLoop fetch page rl (remaining + 1) pt store =
        ([Event.fetched page (rl - (remaining + 1))], PageOut.abort store))
    ∧ (∀ (fetch : Fetcher) (rl fuel : Nat) (tracks : List TrackRecord),
      1 ≤ rl → 1 ≤ fuel → fetch 1 0 = FetchOutcome.page tracks 0 →
      (importLastfm fetch rl fuel).outcome = Outcome.noData
      ∧ (importLastfm fetch rl fuel).writes = []
      ∧ (importLastfm fetch rl fuel).events = [Event.queryPage 1, Event.fetched 1 0]) := by
  constructor
  · intro fetch page rl remaining pt store tracks tp hf htp
    simp [retryLoop, hf, htp]
  · intro fetch rl fuel tracks hrl hfuel hf
    obtain ⟨n, rfl⟩ : ∃ n, fuel = n + 1 := ⟨fuel - 1, by omega⟩
    have hret := retryLoop_top_abort fetch 1 rl 1 [] tracks 0 hrl hf (by omega)
    simp [importLastfm, outerLoop, hret]

/-- Witness for C3 at a concrete fetcher that reports zero pages. -/
theorem claim_c3_witness :
    retryLoop (fun _ _ => FetchOutcome.page [] 0) 1 3 3 1 [] =
      ([Event.fetched 1 0], PageOut.abort [])
    ∧ (importLastfm (fun _ _ => FetchOutcome.page [] 0) 3 5).outcome = Outcome.noData
    ∧ (importLastfm (fun _ _ => FetchOutcome.page [] 0) 3 5).writes = [] := by
  refine ⟨?_, ?_, ?_⟩
  · exact claim_c3.1 (fun _ _ => FetchOutcome.page [] 0) 1 3 2 1 [] [] 0 rfl (by decide)
  · exact (claim_c3.2 (fun _ _ => FetchOutcome.page [] 0) 3 5 [] (by decide) (by decide) rfl).1
  · exact (claim_c3.2 (fun _ _ => FetchOutcome.page [] 0) 3 5 [] (by decide) (by decide) rfl).2.1

/-- C4: when every attempt for page 2 of 3 returns an empty list (with a
valid page count) while pages 1 and 3 succeed, the run does not raise:
page 2 is skipped and `found_total` covers pages 1 and 3 only. -/
theorem claim_c4 : ∀ (fetch : Fetcher) (rl fuel : Nat)
    (ts1 ts3 : List TrackRecord),
    1 ≤ rl → 4 ≤ fuel →
    fetch 1 0 = FetchOutcome.page ts1 3 →
    (∀ r, fetch 2 r = FetchOutcome.page [] 3) →
    fetch 3 0 = FetchOutcome.page ts3 3 →
    ts1 ≠ [] → ts3 ≠ [] →
    (importLastfm fetch rl fuel).outcome = Outcome.done
    ∧ (importLastfm fetch rl fuel).foundTotal = ts1.length + ts3.length := by
  intro fetch rl fuel ts1 ts3 hrl hfuel hf1 hf2 hf3 hne1 hne3
  obtain ⟨n, rfl⟩ : ∃ n, fuel = n + 4 := ⟨fuel - 4, by omega⟩
  rcases ts1 with _ | ⟨t1, ts1'⟩
  · exact absurd rfl hne1
  rcases ts3 with _ | ⟨t3, ts3'⟩
  · exact absurd rfl hne3
  have h1 := retryLoop_top_cont fetch 1 rl 1 [] t1 ts1' 3 hrl hf1 (by omega)
  obtain ⟨evs2, h2⟩ := retryLoop_top_allEmpty fetch 2 rl 3 3
    ((processTracks [] (t1 :: ts1')).1) hrl hf2 (by omega)
  have h3 := retryLoop_top_cont fetch 3 rl 3 ((processTracks [] (t1 :: ts1')).1)
    t3 ts3' 3 hrl hf3 (by omega)
  simp [importLastfm, outerLoop, h1, h2, h3, processTracks_found, processTracks_unknown]

/-- Witness for C4 at a concrete fetcher whose page 2 always fails. -/
theorem claim_c4_witness :
    (importLastfm
      (fun p _ => match p with
        | 1 => FetchOutcome.page [trkA] 3
        | 2 => FetchOutcome.page [] 3
        | _ => FetchOutcome.page [trkB] 3) 3 10).outcome = Outcome.done
    ∧ (importLastfm
      (fun p _ => match p with
        | 1 => FetchOutcome.page [trkA] 3
        | 2 => FetchOutcome.page [] 3
        | _ => FetchOutcome.page [trkB] 3) 3 10).foundTotal = 2 := by
  have h := claim_c4
    (fun p _ => match p with
      | 1 => FetchOutcome.page [trkA] 3
      | 2 => FetchOutcome.page [] 3
      | _ => FetchOutcome.page [trkB] 3) 3 10 [trkA] [trkB]
    (by decide) (by decide) rfl (fun r => rfl) rfl (by decide) (by decide)
  exact ⟨h.1, h.2.trans (by decide)⟩

/-- C5: the loop bound is re-read after every fetch: with page 1
reporting 5 total pages and page 2 reporting 2, the run stops after page
2 and never fetches pages 3 to 5; and in every run the pages announced by
the loop are consecutive, starting at 1. -/
theorem claim_c5 :
    (∀ (fetch : Fetcher) (rl fuel : Nat) (ts1 ts2 : List TrackRecord),
      1 ≤ rl → 3 ≤ fuel →
      fetch 1 0 = FetchOutcome.page ts1 5 →
      fetch 2 0 = FetchOutcome.page ts2 2 →
      ts1 ≠ [] → ts2 ≠ [] →
      (importLastfm fetch rl fuel).outcome = Outcome.done
      ∧ fetchedPages (importLastfm fetch rl fuel).events = [1, 2])
    ∧ (∀ (fetch : Fetcher) (rl fuel : Nat), ∃ m,
      queryPages (importLastfm fetch rl fuel).events = List.range' 1 m) := by
  constructor
  · intro fetch rl fuel ts1 ts2 hrl hfuel hf1 hf2 hne1 hne2
    obtain ⟨n, rfl⟩ : ∃ n, fuel = n + 3 := ⟨fuel - 3, by omega⟩
    rcases ts1 with _ | ⟨t1, ts1'⟩
    · exact absurd rfl hne1
    rcases ts2 with _ | ⟨t2, ts2'⟩
    · exact absurd rfl hne2
    have h1 := retryLoop_top_cont fetch 1 rl 1 [] t1 ts1' 5 hrl hf1 (by omega)
    have h2 := retryLoop_top_cont fetch 2 rl 5 ((processTracks [] (t1 :: ts1')).1)
      t2 ts2' 2 hrl hf2 (by omega)
    simp [importLastfm, outerLoop, h1, h2, fetchedPages]
  · intro fetch rl fuel
    simpa using outerLoop_query fetch rl fuel 0 1 0 0 []

/-- Witness for C5 at a concrete fetcher with a shrinking page total. -/
theorem claim_c5_witness :
    ((importLastfm
      (fun p _ => match p with
        | 1 => FetchOutcome.page [trkA] 5
        | _ => FetchOutcome.page [trkB] 2) 3 9).outcome = Outcome.done
    ∧ fetchedPages (importLastfm
      (fun p _ => match p with
        | 1 => FetchOutcome.page [trkA] 5
        | _ => FetchOutcome.page [trkB] 2) 3 9).events = [1, 2])
    ∧ ∃ m, queryPages (importLastfm (fun _ _ => FetchOutcome.exc) 2 4).events =
        List.range' 1 m := by
  constructor
  · exact claim_c5.1
      (fun p _ => match p with
        | 1 => FetchOutcome.page [trkA] 5
        | _ => FetchOutcome.page [trkB] 2) 3 9 [trkA] [trkB]
      (by decide) (by decide) rfl rfl (by decide) (by decide)
  · exact claim_c5.2 (fun _ _ => FetchOutcome.exc) 2 4

/-- C6 counterexample: on the zero-pages abort the error surfaces with
the connection still open — there is no close on the error path — so the
claim that the handle is released before the error surfaces is false. -/
theorem claim_c6_counterexample :
    (importLastfm (fun _ _ => FetchOutcome.page [] 0) 3 5).outcome = Outcome.noData
    ∧ (importLastfm (fun _ _ => FetchOutcome.page [] 0) 3 5).conn = ConnState.opened
    ∧ (importLastfm (fun _ _ => FetchOutcome.page [] 0) 3 5).committed = false := by
  decide

/-- C6 (amended): on every terminal-error exit (zero-pages abort or an
uncaught fetch exception) the uncommitted writes are discarded — no
commit runs — but the storage handle is NOT released: the error
propagates with the connection still open. -/
theorem claim_c6 : ∀ (fetch : Fetcher) (rl fuel : Nat),
    (importLastfm fetch rl fuel).outcome = Outcome.noData ∨
    (importLastfm fetch rl fuel).outcome = Outcome.excRaised →
    (importLastfm fetch rl fuel).committed = false ∧
    (importLastfm fetch rl fuel).conn = ConnState.opened := by
  intro fetch rl fuel h
  exact outerLoop_err fetch rl fuel 0 1 0 0 [] h

/-- Witness for the amended C6 at a concrete zero-pages fetcher. -/
theorem claim_c6_witness :
    (importLastfm (fun _ _ => FetchOutcome.page [] 0) 2 4).committed = false ∧
    (importLastfm (fun _ _ => FetchOutcome.page [] 0) 2 4).conn = ConnState.opened :=
  claim_c6 (fun _ _ => FetchOutcome.page [] 0) 2 4 (Or.inl (by decide))

/-- C7 counterexample: with a fetcher whose first attempt raises, the run
aborts at once with a single fetch call — the exception is neither caught
nor retried — so the claim that every per-attempt failure is caught and
retried and that a single-attempt failure never aborts the run is false. -/
theorem claim_c7_counterexample :
    (importLastfm (fun _ _ => FetchOutcome.exc) 3 5).outcome = Outcome.excRaised
    ∧ (importLastfm (fun _ _ => FetchOutcome.exc) 3 5).events =
        [Event.queryPage 1, Event.fetched 1 0] := by
  decide

/-- C7 (amended): inside the retry loop only the empty-track-list failure
is caught, logged and retried immediately; an exception raised by the
page fetch is not caught — it propagates out of the retry loop on its
first occurrence and aborts the run. -/
theorem claim_c7 :
    (∀ (fetch : Fetcher) (page rl remaining pt : Nat) (store : List Row),
      fetch page (rl - (remaining + 1)) = FetchOutcome.exc →
      retryLoop fetch page rl (remaining + 1) pt store =
        ([Event.fetched page (rl - (remaining + 1))], PageOut.raised store))
    ∧ (∀ (fetch : Fetcher) (page rl remaining pt : Nat) (store : List Row) (tp : Nat),
      fetch page (rl - (remaining + 1)) = FetchOutcome.page [] tp → 1 ≤ tp → 1 ≤ rl →
      retryLoop fetch page rl (remaining + 1) pt store =
        ([Event.fetched page (rl - (remaining + 1)), Event.errorPage page,
          Event.retrying page (rl - (remaining + 1))] ++
          (retryLoop fetch page rl remaining tp store).1,
         (retryLoop fetch page rl remaining tp store).2))
    ∧ (∀ (fetch : Fetcher) (rl fuel : Nat),
      1 ≤ rl → 1 ≤ fuel → fetch 1 0 = FetchOutcome.exc →
      (importLastfm fetch rl fuel).outcome = Outcome.excRaised
      ∧ (importLastfm fetch rl fuel).events = [Event.queryPage 1, Event.fetched 1 0]) := by
  refine ⟨?_, ?_, ?_⟩
  · intro fetch page rl remaining pt store hf
    simp [retryLoop, hf]
  · intro fetch page rl remaining pt store tp hf htp hrl
    have hlt : rl - (remaining + 1) < rl := by omega
    have htp' : ¬ tp < 1 := by omega
    simp [retryLoop, hf, htp', hlt]
  · intro fetch rl fuel hrl hfuel hf
    obtain ⟨n, rfl⟩ : ∃ n, fuel = n + 1 := ⟨fuel - 1, by omega⟩
    have hret := retryLoop_top_exc fetch 1 rl 1 [] hrl hf
    simp [importLastfm, outerLoop, hret]

/-- Witness for the amended C7 at concrete fetchers. -/
theorem claim_c7_witness :
    retryLoop (fun _ _ => FetchOutcome.exc) 1 2 2 1 [] =
      ([Event.fetched 1 0], PageOut.raised [])
    ∧ retryLoop (fun _ _ => FetchOutcome.page [] 4) 1 2 2 1 [] =
        ([Event.fetched 1 0, Event.errorPage 1, Event.retrying 1 0] ++
          (retryLoop (fun _ _ => FetchOutcome.page [] 4) 1 2 1 4 []).1,
         (retryLoop (fun _ _ => FetchOutcome.page [] 4) 1 2 1 4 []).2)
    ∧ (importLastfm (fun _ _ => FetchOutcome.exc) 2 3).outcome = Outcome.excRaised := by
  refine ⟨?_, ?_, ?_⟩
  · exact claim_c7.1 (fun _ _ => FetchOutcome.exc) 1 2 1 1 [] rfl
  · exact claim_c7.2.1 (fun _ _ => FetchOutcome.page [] 4) 1 2 1 1 [] 4 rfl
      (by decide) (by decide)
  · exact (claim_c7.2.2 (fun _ _ => FetchOutcome.exc) 2 3 (by decide) (by decide) rfl).1

/-- C8: `process_tracks` counts every record into `found_count` and never
touches `unknown_count`; consequently `unknown_total` is 0 in the final
report of every run. -/
theorem claim_c8 :
    (∀ (store : List Row) (tracks : List TrackRecord),
      (processTracks store tracks).2.1 = tracks.length
      ∧ (processTracks store tracks).2.2 = 0)
    ∧ (∀ (fetch : Fetcher) (rl fuel : Nat),
      (importLastfm fetch rl fuel).unknownTotal = 0) := by
  refine ⟨fun store tracks =>
    ⟨processTracks_found tracks store, processTracks_unknown tracks store⟩,
    fun fetch rl fuel => outerLoop_unknown fetch rl fuel 0 1 0 0 []⟩

/-- C9: the retry variable ranges over `0 .. retry_limit - 1`, so the
guard `retry < retry_limit` always holds and the exhaustion (FAIL) branch
is unreachable in every run; an empty response — even on the last allowed
attempt — takes the retrying branch. -/
theorem claim_c9 :
    (∀ (fetch : Fetcher) (rl fuel p r : Nat),
      Event.failPage p r ∉ (importLastfm fetch rl fuel).events)
    ∧ (∀ (fetch : Fetcher) (page rl pt : Nat) (store : List Row) (tp : Nat),
      1 ≤ rl → 1 ≤ tp → fetch page (rl - 1) = FetchOutcome.page [] tp →
      retryLoop fetch page rl 1 pt store =
        ([Event.fetched page (rl - 1), Event.errorPage page,
          Event.retrying page (rl - 1)],
         PageOut.cont tp store 0 0)) := by
  constructor
  · intro fetch rl fuel p r
    exact outerLoop_noFail fetch rl fuel 0 1 0 0 [] p r
  · intro fetch page rl pt store tp hrl htp hf
    have hlt : rl - 1 < rl := by omega
    have htp' : ¬ tp < 1 := by omega
    simp [retryLoop, hf, htp', hlt]

/-- Witness for C9 at a concrete run and a concrete last attempt. -/
theorem claim_c9_witness :
    Event.failPage 1 0 ∉ (importLastfm (fun _ _ => FetchOutcome.page [] 7) 1 3).events
    ∧ retryLoop (fun _ _ => FetchOutcome.page [] 7) 1 1 1 1 [] =
        ([Event.fetched 1 0, Event.errorPage 1, Event.retrying 1 0],
         PageOut.cont 7 [] 0 0) := by
  refine ⟨?_, ?_⟩
  · exact claim_c9.1 (fun _ _ => FetchOutcome.page [] 7) 1 3 1 0
  · exact claim_c9.2 (fun _ _ => FetchOutcome.page [] 7) 1 1 1 [] 7
      (by decide) (by decide) rfl

/-- C10: with `retry_limit = 0` the retry loop body never runs: the
single outer iteration performs no fetch and writes nothing, the loop
terminates, and the run finishes normally — confirmation gate, commit and
close — with both totals 0. -/
theorem claim_c10 : ∀ (fetch : Fetcher) (fuel : Nat), 2 ≤ fuel →
    importLastfm fetch 0 fuel =
      { outcome := Outcome.done, foundTotal := 0, unknownTotal := 0,
        writes := [], committed := true, conn := ConnState.closed,
        events := [Event.queryPage 1, Event.confirm] } := by
  intro fetch fuel hf
  obtain ⟨n, rfl⟩ : ∃ n, fuel = n + 2 := ⟨fuel - 2, by omega⟩
  simp [importLastfm, outerLoop, retryLoop]

/-- Witness for C10 at a concrete fetcher and fuel. -/
theorem claim_c10_witness :
    importLastfm (fun _ _ => FetchOutcome.exc) 0 2 =
      { outcome := Outcome.done, foundTotal := 0, unknownTotal := 0,
        writes := [], committed := true, conn := ConnState.closed,
        events := [Event.queryPage 1, Event.confirm] } :=
  claim_c10 (fun _ _ => FetchOutcome.exc) 2 (by decide)

end LastExport
